import Mathlib

/-!
Verification development for the checkov-prismaless VS Code extension
(scan-lifecycle coordinator, result cache, process runner, installer).

The definitions below are shallow embeddings of the TypeScript sources:
  * `src/extension.ts`   — scan coordinator (active-scan tokens, admission
    control, cache-first scan path, per-document cancellation),
  * `src/utils.ts`       — the content-hash result cache (date-stamped wipe,
    per-file ring buffer of capacity 10),
  * `src/checkov/checkovRunner.ts`    — process runner close-handler and the
    skip-check argument computation,
  * `src/checkov/checkovInstaller.ts` — version resolution with the 1-hour
    version cache and the dockerized install with latest-tag fallback.

Effectful pieces (VS Code Memento state, `Date.now()`, the docker/network
boundary, JSON parsing of scanner output) are made explicit: state is passed
and returned, the current time is a parameter, and the external world is an
oracle record.  The in-memory Memento semantics of VS Code (reads observe
prior writes within a session) is modelled by plain state passing.
-/

namespace CheckovPrismaless

/-- A single failed check as parsed from scanner output.  The result cache and
the diagnostics path treat these records opaquely; only the fields needed by
the claims are carried. -/
structure FailedCheckovCheck where
  checkId : String
  checkName : String
  fileLineRange : Nat × Nat
deriving DecidableEq, Repr

/-! ## Result cache (`src/utils.ts`)

`utils.ts` stores, per workspace, a `ResultsCache` object keyed by file name,
each value a `FileCache` ring buffer (`{ oldest, elements }`) of at most
`maxCacheSizePerFile` entries, plus a midnight-truncated date stamp
(`CKV_CACHE_DATE`).  A JavaScript object keyed by strings is modelled as an
insertion-ordered association list. -/

/-- The `FileScanCacheEntry` from `utils.ts`: one cached scan result. -/
structure FileScanCacheEntry where
  fileHash : String
  filename : String
  results : List FailedCheckovCheck
deriving DecidableEq, Repr

/-- The `FileCache` from `checkov/models.ts` as used by `utils.ts`: a ring buffer
with an explicit overwrite cursor. -/
structure FileCache where
  oldest : Nat
  elements : List FileScanCacheEntry
deriving DecidableEq, Repr

/-- The `maxCacheSizePerFile` from `utils.ts`. -/
def maxCacheSizePerFile : Nat := 10

/-- The `ResultsCache`: a JavaScript object mapping file names to file caches,
modelled as an insertion-ordered association list. -/
abbrev ResultsCache := List (String × FileCache)

/-- The workspace-scoped Memento slots used by the cache
(`CKV_CACHE_RESULTS` and `CKV_CACHE_DATE`). -/
structure WorkspaceState where
  cacheResults : Option ResultsCache
  cacheDate : Option Nat
deriving DecidableEq, Repr

/-- Property lookup `cache[filename]` on the modelled JavaScript object. -/
def lookupFile (cache : ResultsCache) (filename : String) : Option FileCache :=
  (cache.find? (fun p => p.1 == filename)).map (·.2)

/-- Property assignment `cache[filename] = fc`: replaces the value in place if
the key exists, otherwise appends the key (JavaScript object key order). -/
def setFile (cache : ResultsCache) (filename : String) (fc : FileCache) : ResultsCache :=
  match cache with
  | [] => [(filename, fc)]
  | p :: rest =>
    if p.1 == filename then (filename, fc) :: rest
    else p :: setFile rest filename fc

/-- The `validateCacheExpiration` from `utils.ts`: compares the stored cache date
against today's midnight-truncated date (`today`, a parameter standing for
`getDate()`); on mismatch the whole results cache is wiped and re-stamped. -/
def validateCacheExpiration (today : Nat) (st : WorkspaceState) : WorkspaceState :=
  if st.cacheDate = some today then st
  else { cacheResults := some [], cacheDate := some today }

/-- The `findSavedScanForFile` from `utils.ts`. -/
def findSavedScanForFile (fileHash filename : String) (fileCache : FileCache) :
    Option FileScanCacheEntry :=
  fileCache.elements.find? (fun e => e.fileHash == fileHash && e.filename == filename)

/-- The `fileCacheContainsEntry` from `utils.ts`. -/
def fileCacheContainsEntry (element : FileScanCacheEntry) (fileCache : FileCache) : Bool :=
  (findSavedScanForFile element.fileHash element.filename fileCache).isSome

/-- The `addSavedScanForFile` from `utils.ts`: push while below capacity; once
full, overwrite the slot at the `oldest` cursor and advance it circularly. -/
def addSavedScanForFile (element : FileScanCacheEntry) (fileCache : FileCache) : FileCache :=
  if fileCache.elements.length < maxCacheSizePerFile then
    { fileCache with elements := fileCache.elements ++ [element] }
  else
    let elements := fileCache.elements.set fileCache.oldest element
    let oldest := fileCache.oldest + 1
    { oldest := if oldest = elements.length then 0 else oldest, elements := elements }

/-- The `getCachedResults` from `utils.ts`.  Returns the (possibly wiped) state
together with the lookup result. -/
def getCachedResults (today : Nat) (st : WorkspaceState) (fileHash filename : String) :
    WorkspaceState × Option FileScanCacheEntry :=
  let st1 := validateCacheExpiration today st
  match st1.cacheResults with
  | some cache =>
    match lookupFile cache filename with
    | some fileCache => (st1, findSavedScanForFile fileHash filename fileCache)
    | none => (st1, none)
  | none => (st1, none)

/-- The `saveCachedResults` from `utils.ts`.  A missing per-file cache is created
empty and registered; the entry is added only when no entry with the same
hash and file name is already present (idempotent put). -/
def saveCachedResults (today : Nat) (st : WorkspaceState) (fileHash filename : String)
    (results : List FailedCheckovCheck) : WorkspaceState :=
  let st1 := validateCacheExpiration today st
  match st1.cacheResults with
  | none => st1
  | some cache =>
    let found := lookupFile cache filename
    let fileCache := found.getD { oldest := 0, elements := [] }
    let cache1 := match found with
      | none => setFile cache filename fileCache
      | some _ => cache
    let entry : FileScanCacheEntry := { fileHash := fileHash, filename := filename, results := results }
    if fileCacheContainsEntry entry fileCache then
      { st1 with cacheResults := some cache1 }
    else
      { st1 with cacheResults := some (setFile cache1 filename (addSavedScanForFile entry fileCache)) }

/-- The `clearCache` from `utils.ts`: removes both Memento keys. -/
def clearCache (_st : WorkspaceState) : WorkspaceState :=
  { cacheResults := none, cacheDate := none }

/-- The cache entry `saveCachedResults` builds for a (hash, findings) pair
inserted under a file name. -/
def toCacheEntry (filename : String) (p : String × List FailedCheckovCheck) :
    FileScanCacheEntry :=
  { fileHash := p.1, filename := filename, results := p.2 }

/-- A sequence of `saveCachedResults` calls for one file name, one call per
(hash, findings) pair, in order. -/
def insertAll (today : Nat) (filename : String)
    (ps : List (String × List FailedCheckovCheck)) (st : WorkspaceState) : WorkspaceState :=
  ps.foldl (fun s p => saveCachedResults today s p.1 filename p.2) st

/-! ## Process runner (`src/checkov/checkovRunner.ts`)

`runCheckovScan` spawns the scanner and settles its promise in the
`close` handler of the child process.  The handler is modelled as a pure
function of the data it inspects: the cancellation flag at close time, the
exit code, and the buffered structured stdout.  `JSON.parse` composed with
`parseCheckovResponse` (the latter lives outside the embedded sources) is a
parameter `parse`; `none` stands for a thrown parse error, which the
handler's `try`/`catch` converts into a rejection. -/

/-- The `CheckovResponse` (`checkov/models.ts`) as consumed by the coordinator. -/
structure CheckovResponse where
  failedChecks : List FailedCheckovCheck
deriving DecidableEq, Repr

/-- How `runCheckovScan`'s promise settles. -/
inductive RunnerOutcome where
  | resolved (r : CheckovResponse)
  | rejected (msg : String)
deriving DecidableEq, Repr

/-- The `cleanupStdout` from `checkovRunner.ts`:
`stdout.replace(/.\[0m/g, '')` — delete every non-overlapping match of one
character (regex `.`, which excludes line terminators) followed by the
literal three characters `[0m`, scanning left to right. -/
def cleanupStdoutChars : List Char → List Char
  | c :: '[' :: '0' :: 'm' :: rest =>
    if c = '\n' ∨ c = '\r' then c :: cleanupStdoutChars ('[' :: '0' :: 'm' :: rest)
    else cleanupStdoutChars rest
  | c :: rest => c :: cleanupStdoutChars rest
  | [] => []

/-- The `cleanupStdout` lifted to strings. -/
def cleanupStdout (stdout : String) : String :=
  ⟨cleanupStdoutChars stdout.data⟩

/-- The `s.startsWith(pre)`, modelled on the character sequence (equivalent to
the byte-level prefix test on valid strings). -/
def strStartsWith (s pre : String) : Bool :=
  pre.data.isPrefixOf s.data

/-- The `ckv.on('close', ...)` handler of `runCheckovScan`
(`checkovRunner.ts` lines 123–152): reject when cancellation was requested,
reject on non-zero exit, resolve an empty response on a bare `[]` payload,
otherwise parse the cleaned output (a parse failure rejects). -/
def runCheckovScanOnClose (parse : String → Option CheckovResponse)
    (cancelRequested : Bool) (code : Int) (stdout : String) : RunnerOutcome :=
  if cancelRequested then .rejected "Cancel invoked"
  else if code ≠ 0 then .rejected ("Checkov exited with code " ++ toString code)
  else if strStartsWith stdout "[]" then .resolved { failedChecks := [] }
  else
    match parse (cleanupStdout stdout) with
    | some output => .resolved output
    | none => .rejected "Failed to get response from Checkov."

/-- What the debounced `runScan` closure in `extension.ts` does with the
settled promise. -/
inductive ScanHandling where
  | resultsApplied (failedChecks : List FailedCheckovCheck)
  | silentReturn
  | errorSurfaced (showDialog : Bool)
deriving DecidableEq, Repr

/-- The `try`/`catch` around `await runCheckovScan` in `runScan`
(`extension.ts` lines 351–372): a resolved promise applies the findings via
`handleScanResults`; a rejected promise whose token is already cancelled
returns silently; any other rejection surfaces an error (the contact-us
dialog is shown unless error messages are disabled). -/
def runScanHandle (disableErrorMessage : Bool) (cancelRequestedAtCatch : Bool)
    (outcome : RunnerOutcome) : ScanHandling :=
  match outcome with
  | .resolved r => .resultsApplied r.failedChecks
  | .rejected _ =>
    if cancelRequestedAtCatch then .silentReturn
    else .errorSurfaced (!disableErrorMessage)

/-! ## Process runner argument fragment (`src/checkov/checkovRunner.ts`) -/

/-- The `skipChecksDefault` from `checkovRunner.ts`. -/
def skipChecksDefault : List String := ["BC_LIC*"]

/-- The `skipCheckParam` computation from `runCheckovScan`
(`checkovRunner.ts` lines 80–85): `undefined` yields the default deny list,
a non-empty array yields its comma-joined contents, an empty array yields no
argument at all. -/
def skipCheckParam (skipChecks : Option (List String)) : List String :=
  match skipChecks with
  | none => ["--skip-check", String.intercalate "," skipChecksDefault]
  | some l =>
    if l.length > 0 then ["--skip-check", String.intercalate "," l]
    else []

/-! ## Scan coordinator (`src/extension.ts`)

`activate` keeps `activeScanTokens : ActiveScan[]` — an array of
`{ uri, tokenSource }` in admission order.  A token source is modelled as a
record with a unique `id` (standing for object identity) and a latching
`cancelled` flag.  `startScan`'s synchronous body (everything up to the
`await runScan(...)` suspension, plus the early-return cache path) is one
atomic step, as it runs without interleaving on the extension host thread. -/

/-- One element of `activeScanTokens` (`interface ActiveScan` plus the token
source's latching cancellation flag; `id` models object identity of the
`CancellationTokenSource`). -/
structure ScanTok where
  id : Nat
  uri : String
  cancelled : Bool
deriving DecidableEq, Repr

/-- The `tokenSource.cancel()` on a modelled token. -/
def cancelTok (t : ScanTok) : ScanTok :=
  { t with cancelled := true }

/-- The `cancelScanForDocument` from `extension.ts` (lines 301–310): find the
first tracked scan with the given URI, cancel and dispose it and remove it
from tracking.  Returns the new tracking array and the cancelled token, if
any. -/
def cancelScanForDocument (documentUri : String) :
    List ScanTok → List ScanTok × Option ScanTok
  | [] => ([], none)
  | t :: rest =>
    if t.uri = documentUri then (rest, some (cancelTok t))
    else
      let p := cancelScanForDocument documentUri rest
      (t :: p.1, p.2)

/-- The `removeScanToken` from `extension.ts` (lines 315–325): remove the first
tracked scan with the given URI without cancelling it. -/
def removeScanToken (documentUri : String) : List ScanTok → List ScanTok
  | [] => []
  | t :: rest =>
    if t.uri = documentUri then rest
    else t :: removeScanToken documentUri rest

/-- The `while (activeScanTokens.length > MAX_CONCURRENT_SCANS)` loop of
`startScan` (`extension.ts` lines 236–246): repeatedly `shift()` the
earliest-admitted scan, cancelling and disposing it.  Returns the remaining
array and the evicted (cancelled) scans in eviction order. -/
def enforceConcurrentScanLimit (maxConcurrentScans : Nat) :
    List ScanTok → List ScanTok × List ScanTok
  | [] => ([], [])
  | t :: rest =>
    if (t :: rest).length > maxConcurrentScans then
      let p := enforceConcurrentScanLimit maxConcurrentScans rest
      (p.1, cancelTok t :: p.2)
    else (t :: rest, [])

/-- Everything `startScan` observable at the coordinator level produces in
one invocation. -/
structure StartScanOutcome where
  /-- `activeScanTokens` when the synchronous body finishes: after
  `removeScanToken` on the cache path, or at the `await runScan` suspension
  on the runner path. -/
  tokens : List ScanTok
  /-- The token cancelled by `cancelScanForDocument` (supersession), if any. -/
  superseded : Option ScanTok
  /-- The tokens cancelled by the concurrent-scan limit, in eviction order. -/
  evicted : List ScanTok
  /-- Whether the path reaches `runScan` (the Process Runner invocation). -/
  runnerInvoked : Bool
  /-- The findings projected synchronously from the cache, if any. -/
  projectedFromCache : Option (List FailedCheckovCheck)
deriving DecidableEq, Repr

/-- The `startScan` from `extension.ts` (lines 202–296), its synchronous body:
cancel any existing scan for the document, create and track a fresh token
(`newId` stands for the fresh `CancellationTokenSource` identity), enforce
the concurrent-scan limit by evicting from the front, then either serve from
cache (`useCache` with a successful hash and a cache hit: project cached
findings, drop the token, skip the runner), bail out on a hash failure, or
proceed to invoke the runner.  `hashOk` models whether `getFileHash` threw;
`cachedResults` models the `getCachedResults` return value. -/
def startScan (maxConcurrentScans : Nat) (newId : Nat) (documentUri : String)
    (useCache : Bool) (hashOk : Bool) (cachedResults : Option (List FailedCheckovCheck))
    (activeScanTokens : List ScanTok) : StartScanOutcome :=
  let p := cancelScanForDocument documentUri activeScanTokens
  let newTok : ScanTok := { id := newId, uri := documentUri, cancelled := false }
  let tracked := p.1 ++ [newTok]
  let q := enforceConcurrentScanLimit maxConcurrentScans tracked
  if useCache then
    if !hashOk then
      { tokens := removeScanToken documentUri q.1, superseded := p.2, evicted := q.2,
        runnerInvoked := false, projectedFromCache := none }
    else
      match cachedResults with
      | some results =>
        { tokens := removeScanToken documentUri q.1, superseded := p.2, evicted := q.2,
          runnerInvoked := false, projectedFromCache := some results }
      | none =>
        { tokens := q.1, superseded := p.2, evicted := q.2,
          runnerInvoked := true, projectedFromCache := none }
  else
    { tokens := q.1, superseded := p.2, evicted := q.2,
      runnerInvoked := true, projectedFromCache := none }

/-- The coordinator events that mutate `activeScanTokens`. -/
inductive CoordOp where
  /-- A `startScan` invocation (synchronous body). -/
  | start (newId : Nat) (uri : String) (useCache : Bool) (hashOk : Bool)
      (cachedResults : Option (List FailedCheckovCheck))
  /-- The `finally { removeScanToken(documentUri) }` cleanup after
  `await runScan` settles. -/
  | finish (uri : String)
  /-- The `setTimeout` timeout callback firing for the token with this
  identity: it cancels the token in place, without removing it. -/
  | timeoutFire (id : Nat)
  /-- `cancelAllActiveScans` from `onDidChangeActiveTextEditor`: focus moved
  to an unsupported document. -/
  | focusUnsupported

/-- One coordinator step acting on `activeScanTokens`. -/
def applyCoordOp (maxConcurrentScans : Nat) (st : List ScanTok) : CoordOp → List ScanTok
  | .start newId uri useCache hashOk cachedResults =>
    (startScan maxConcurrentScans newId uri useCache hashOk cachedResults st).tokens
  | .finish uri => removeScanToken uri st
  | .timeoutFire id => st.map (fun t => if t.id = id then cancelTok t else t)
  | .focusUnsupported => []

/-- The tracking array reached from extension activation (an empty array)
after a sequence of coordinator events. -/
def runCoordOps (maxConcurrentScans : Nat) (ops : List CoordOp) : List ScanTok :=
  ops.foldl (applyCoordOp maxConcurrentScans) []

/-! ## Installer / version resolver (`src/checkov/checkovInstaller.ts`)

The docker/network boundary is an oracle: `pullTag tag` is the success of
`docker pull bridgecrew/checkov:<tag>` (used both by
`checkVersionHasDockerTag` and by the install-time pull), and
`runVersionOutput` is the stdout of
`docker run --rm --interactive bridgecrew/checkov:latest -v`
(`none` = the command threw). -/

/-- The `VersionCache` record from `checkovInstaller.ts`. -/
structure VersionCacheEntry where
  version : String
  timestamp : Nat
  resolvedVersion : String
deriving DecidableEq, Repr

/-- The `VERSION_CACHE_TTL` from `checkovInstaller.ts`: one hour in
milliseconds. -/
def VERSION_CACHE_TTL : Nat := 1000 * 60 * 60

/-- The docker/network oracle for the installer. -/
structure DockerNet where
  pullTag : String → Bool
  runVersionOutput : Option String

/-- The `checkVersionHasDockerTag` from `checkovInstaller.ts`: try to pull the
version tag; a failure is caught and reported as `false`. -/
def checkVersionHasDockerTag (net : DockerNet) (version : String) : Bool :=
  net.pullTag version

/-- The result of `resolveCheckovVersion`: the resolved pair, the version
cache afterwards, and how many times the network resolution path ran (0 when
served directly or from the cache). -/
structure ResolveResult where
  version : String
  resolvedVersion : String
  cacheAfter : Option VersionCacheEntry
  networkResolutions : Nat
deriving Repr

/-- The `resolveCheckovVersion` from `checkovInstaller.ts` (lines 130–166).
A concrete requested version is returned directly.  For `"latest"`, a cache
entry younger than the TTL is reused; otherwise the network is consulted
(pull `latest`, read the embedded version, probe the version tag) and the
cache is filled; any failure falls back to `("latest", "latest")` without
touching the cache.  `now` stands for `Date.now()`. -/
def resolveCheckovVersion (net : DockerNet) (now : Nat) (requestedVersion : String)
    (versionCache : Option VersionCacheEntry) : ResolveResult :=
  if requestedVersion ≠ "latest" then
    { version := requestedVersion, resolvedVersion := requestedVersion,
      cacheAfter := versionCache, networkResolutions := 0 }
  else
    match versionCache with
    | some c =>
      if now - c.timestamp < VERSION_CACHE_TTL then
        { version := c.version, resolvedVersion := c.resolvedVersion,
          cacheAfter := versionCache, networkResolutions := 0 }
      else resolveCheckovVersionFromNet net now versionCache
    | none => resolveCheckovVersionFromNet net now versionCache
where
  /-- The `try` block of `resolveCheckovVersion` that goes to the network,
  plus its `catch` fallback. -/
  resolveCheckovVersionFromNet (net : DockerNet) (now : Nat)
      (versionCache : Option VersionCacheEntry) : ResolveResult :=
    if net.pullTag "latest" then
      match net.runVersionOutput with
      | some versionOutput =>
        let version := versionOutput.trim
        let hasDockerTag := checkVersionHasDockerTag net version
        let resolvedVersion := if hasDockerTag then version else "latest"
        { version := version, resolvedVersion := resolvedVersion,
          cacheAfter := some { version := version, resolvedVersion := resolvedVersion, timestamp := now },
          networkResolutions := 1 }
      | none =>
        { version := "latest", resolvedVersion := "latest",
          cacheAfter := versionCache, networkResolutions := 1 }
    else
      { version := "latest", resolvedVersion := "latest",
        cacheAfter := versionCache, networkResolutions := 1 }

/-- The `CheckovInstallationMethod` from `checkovInstaller.ts`. -/
inductive CheckovInstallationMethod where
  | pip3
  | pipenv
  | docker
deriving DecidableEq, Repr

/-- The `CheckovInstallation` from `checkovInstaller.ts`. -/
structure CheckovInstallation where
  checkovInstallationMethod : CheckovInstallationMethod
  checkovPath : String
  version : Option String
  actualVersion : Option String
deriving DecidableEq, Repr

/-- The result of `installOrUpdateCheckovWithDocker`: the installation
(`none` = the outer `catch` returned `null`), the version cache afterwards,
and the install-phase pull attempts (tags) in order. -/
structure DockerInstallResult where
  installation : Option CheckovInstallation
  cacheAfter : Option VersionCacheEntry
  pullAttempts : List String
deriving Repr

/-- The `installOrUpdateCheckovWithDocker` from `checkovInstaller.ts`
(lines 176–216): resolve the version, pull the resolved tag; on a pull
failure for a non-`latest` resolved tag, pull `latest` once, clear the
version cache, and return an installation whose `version` (the tag used for
docker commands) is `latest` while `actualVersion` keeps the discovered
version for display.  A failing `latest` retry (or a failing pull of an
already-`latest` tag) propagates to the outer `catch`, which returns
`null`. -/
def installOrUpdateCheckovWithDocker (net : DockerNet) (now : Nat)
    (checkovVersion : String) (versionCache : Option VersionCacheEntry) : DockerInstallResult :=
  let r := resolveCheckovVersion net now checkovVersion versionCache
  if net.pullTag r.resolvedVersion then
    { installation := some
        { checkovInstallationMethod := .docker, checkovPath := "docker",
          version := some r.resolvedVersion, actualVersion := some r.version },
      cacheAfter := r.cacheAfter, pullAttempts := [r.resolvedVersion] }
  else if r.resolvedVersion ≠ "latest" then
    if net.pullTag "latest" then
      { installation := some
          { checkovInstallationMethod := .docker, checkovPath := "docker",
            version := some "latest", actualVersion := some r.version },
        cacheAfter := none, pullAttempts := [r.resolvedVersion, "latest"] }
    else
      { installation := none, cacheAfter := r.cacheAfter,
        pullAttempts := [r.resolvedVersion, "latest"] }
  else
    { installation := none, cacheAfter := r.cacheAfter,
      pullAttempts := [r.resolvedVersion] }

/-- The `clearVersionCache` from `checkovInstaller.ts`. -/
def clearVersionCache (_versionCache : Option VersionCacheEntry) : Option VersionCacheEntry :=
  none

/-! # Theorems -/

/-! ## C6: a cancelled scan never applies diagnostics -/

/-- C6: once a scan's cancellation token has been cancelled, the runner's
promise rejects rather than resolves — whatever the exit code, the buffered
output, and the parser behaviour — and the coordinator's catch branch for a
cancelled scan neither applies results nor surfaces a user-facing error. -/
theorem cancelledScanIsSilent :
    ∀ (parse : String → Option CheckovResponse) (code : Int) (stdout : String)
      (disableErrorMessage : Bool),
      runCheckovScanOnClose parse true code stdout = .rejected "Cancel invoked" ∧
      runScanHandle disableErrorMessage true (runCheckovScanOnClose parse true code stdout)
        = .silentReturn := by
  intro parse code stdout disableErrorMessage
  have h : runCheckovScanOnClose parse true code stdout = .rejected "Cancel invoked" := rfl
  exact ⟨h, by rw [h]; rfl⟩

/-! ## C9: exit-code semantics of the close handler -/

/-- C9: for every terminated scan process, a non-zero exit code makes
`runCheckovScan` reject regardless of any partial output, and a zero exit
with the bare empty-array payload `[]` (outside cancellation) resolves with
an empty findings list. -/
theorem runnerExitCodeSemantics :
    ∀ (parse : String → Option CheckovResponse) (cancelRequested : Bool) (code : Int)
      (stdout : String),
      (code ≠ 0 → ∃ msg, runCheckovScanOnClose parse cancelRequested code stdout
        = .rejected msg) ∧
      (cancelRequested = false → code = 0 → stdout = "[]" →
        runCheckovScanOnClose parse cancelRequested code stdout
          = .resolved { failedChecks := [] }) := by
  intro parse cancelRequested code stdout
  constructor
  · intro hc
    cases cancelRequested with
    | true => exact ⟨"Cancel invoked", rfl⟩
    | false =>
      exact ⟨"Checkov exited with code " ++ toString code,
        by simp [runCheckovScanOnClose, hc]⟩
  · rintro rfl rfl rfl
    rfl

/-- Witness for C9 at concrete inputs: exit code 1 with partial output
rejects; exit code 0 with a bare `[]` payload resolves to zero findings. -/
theorem runnerExitCodeSemantics_witness :
    ((1 : Int) ≠ 0 ∧
      ∃ msg, runCheckovScanOnClose (fun _ => none) false 1 "partial output"
        = .rejected msg) ∧
    ((false : Bool) = false ∧ (0 : Int) = 0 ∧ "[]" = "[]" ∧
      runCheckovScanOnClose (fun _ => none) false 0 "[]"
        = .resolved { failedChecks := [] }) :=
  ⟨⟨by decide,
    (runnerExitCodeSemantics (fun _ => none) false 1 "partial output").1 (by decide)⟩,
   rfl, rfl, rfl,
   (runnerExitCodeSemantics (fun _ => none) false 0 "[]").2 rfl rfl rfl⟩

/-! ## C10: the skip-check argument -/

/-- C10: an absent skip-checks setting passes the default deny list
`--skip-check BC_LIC*`; an explicitly empty list passes no `--skip-check`
argument; a non-empty list passes its comma-joined contents — and the absent
and emptied settings produce different invocations. -/
theorem skipCheckParamSemantics :
    skipCheckParam none = ["--skip-check", "BC_LIC*"] ∧
    skipCheckParam (some []) = [] ∧
    (∀ l : List String, l ≠ [] →
      skipCheckParam (some l) = ["--skip-check", String.intercalate "," l]) ∧
    skipCheckParam none ≠ skipCheckParam (some []) := by
  refine ⟨rfl, rfl, ?_, by decide⟩
  intro l hl
  have hpos : 0 < l.length := List.length_pos.mpr hl
  simp [skipCheckParam, hpos]

/-- Witness for C10's non-empty case at a concrete two-element list. -/
theorem skipCheckParamSemantics_witness :
    (["CKV_AWS_1", "CKV_AWS_2"] : List String) ≠ [] ∧
    skipCheckParam (some ["CKV_AWS_1", "CKV_AWS_2"])
      = ["--skip-check", "CKV_AWS_1,CKV_AWS_2"] := by
  refine ⟨by decide, ?_⟩
  have h := skipCheckParamSemantics.2.2.1 ["CKV_AWS_1", "CKV_AWS_2"] (by decide)
  simpa using h

/-! ## Coordinator support lemmas -/

/-- The `cancelScanForDocument` leaves a sub-array of the tracking array. -/
lemma cancelScanForDocument_fst_sublist (u : String) (ts : List ScanTok) :
    List.Sublist (cancelScanForDocument u ts).1 ts := by
  induction ts with
  | nil => simp [cancelScanForDocument]
  | cons t rest ih =>
    by_cases h : t.uri = u
    · simp only [cancelScanForDocument, if_pos h]
      exact List.sublist_cons_self t rest
    · simp only [cancelScanForDocument, if_neg h]
      exact ih.cons₂ t

/-- The `cancelScanForDocument` removes exactly the first entry for the URI. -/
lemma cancelScanForDocument_fst_filter (u : String) (ts : List ScanTok) :
    (cancelScanForDocument u ts).1.filter (fun t => t.uri == u)
      = (ts.filter (fun t => t.uri == u)).tail := by
  induction ts with
  | nil => simp [cancelScanForDocument]
  | cons t rest ih =>
    by_cases h : t.uri = u
    · simp [cancelScanForDocument, if_pos h, List.filter_cons, h]
    · simp only [cancelScanForDocument, if_neg h]
      have hb : (t.uri == u) = false := by simpa using h
      simp [List.filter_cons, hb, ih]

/-- The token `cancelScanForDocument` cancels is the first tracked entry for
the URI. -/
lemma cancelScanForDocument_snd (u : String) (ts : List ScanTok) :
    (cancelScanForDocument u ts).2
      = ((ts.filter (fun t => t.uri == u)).head?).map cancelTok := by
  induction ts with
  | nil => simp [cancelScanForDocument]
  | cons t rest ih =>
    by_cases h : t.uri = u
    · simp [cancelScanForDocument, if_pos h, List.filter_cons, h]
    · have hb : (t.uri == u) = false := by simpa using h
      simp [cancelScanForDocument, if_neg h, List.filter_cons, hb, ih]

/-- With no tracked entry for the URI, `cancelScanForDocument` is inert. -/
lemma cancelScanForDocument_of_not_mem (u : String) (ts : List ScanTok)
    (h : ∀ t ∈ ts, t.uri ≠ u) : cancelScanForDocument u ts = (ts, none) := by
  induction ts with
  | nil => rfl
  | cons t rest ih =>
    have ht : t.uri ≠ u := h t (List.mem_cons_self t rest)
    have hrest := ih (fun x hx => h x (List.mem_cons_of_mem t hx))
    simp [cancelScanForDocument, if_neg ht, hrest]

/-- The `removeScanToken` leaves a sub-array of the tracking array. -/
lemma removeScanToken_sublist (u : String) (ts : List ScanTok) :
    List.Sublist (removeScanToken u ts) ts := by
  induction ts with
  | nil => simp [removeScanToken]
  | cons t rest ih =>
    by_cases h : t.uri = u
    · simp only [removeScanToken, if_pos h]
      exact List.sublist_cons_self t rest
    · simp only [removeScanToken, if_neg h]
      exact ih.cons₂ t

/-- The `removeScanToken` removes exactly the first entry for the URI. -/
lemma removeScanToken_filter (u : String) (ts : List ScanTok) :
    (removeScanToken u ts).filter (fun t => t.uri == u)
      = (ts.filter (fun t => t.uri == u)).tail := by
  induction ts with
  | nil => simp [removeScanToken]
  | cons t rest ih =>
    by_cases h : t.uri = u
    · simp [removeScanToken, if_pos h, List.filter_cons, h]
    · have hb : (t.uri == u) = false := by simpa using h
      simp [removeScanToken, if_neg h, List.filter_cons, hb, ih]

/-- Closed form of the concurrent-scan-limit loop: it drops (and cancels)
exactly the over-limit prefix, i.e. the earliest-admitted scans. -/
lemma enforceConcurrentScanLimit_eq (maxConcurrentScans : Nat) (ts : List ScanTok) :
    enforceConcurrentScanLimit maxConcurrentScans ts
      = (ts.drop (ts.length - maxConcurrentScans),
         (ts.take (ts.length - maxConcurrentScans)).map cancelTok) := by
  induction ts with
  | nil => simp [enforceConcurrentScanLimit]
  | cons t rest ih =>
    simp only [enforceConcurrentScanLimit, List.length_cons]
    by_cases h : rest.length + 1 > maxConcurrentScans
    · rw [if_pos h, ih]
      have hk : rest.length + 1 - maxConcurrentScans
          = (rest.length - maxConcurrentScans) + 1 := by omega
      rw [hk, List.drop_succ_cons, List.take_succ_cons, List.map_cons]
    · rw [if_neg h]
      have hk : rest.length + 1 - maxConcurrentScans = 0 := by omega
      rw [hk, List.drop_zero, List.take_zero, List.map_nil]

/-- After the limit loop, at most `maxConcurrentScans` scans stay tracked. -/
lemma enforceConcurrentScanLimit_length_le (maxConcurrentScans : Nat) (ts : List ScanTok) :
    ((enforceConcurrentScanLimit maxConcurrentScans ts).1).length ≤ maxConcurrentScans := by
  rw [enforceConcurrentScanLimit_eq]
  simp only [List.length_drop]
  omega

/-- The limit loop keeps a sub-array. -/
lemma enforceConcurrentScanLimit_fst_sublist (maxConcurrentScans : Nat) (ts : List ScanTok) :
    List.Sublist (enforceConcurrentScanLimit maxConcurrentScans ts).1 ts := by
  rw [enforceConcurrentScanLimit_eq]
  exact List.drop_sublist _ _

/-- The tracking array `startScan` leaves behind is a sub-array of the
post-supersession array with the fresh token appended. -/
lemma startScan_tokens_sublist (maxConcurrentScans newId : Nat) (uri : String)
    (useCache hashOk : Bool) (cachedResults : Option (List FailedCheckovCheck))
    (st : List ScanTok) :
    List.Sublist (startScan maxConcurrentScans newId uri useCache hashOk cachedResults st).tokens
      ((cancelScanForDocument uri st).1
          ++ [{ id := newId, uri := uri, cancelled := false }]) := by
  have hq := enforceConcurrentScanLimit_fst_sublist maxConcurrentScans
    ((cancelScanForDocument uri st).1 ++ [{ id := newId, uri := uri, cancelled := false }])
  unfold startScan
  rcases useCache with _ | _ <;> rcases hashOk with _ | _ <;>
    rcases cachedResults with _ | results <;>
    simp only [Bool.not_true, Bool.not_false, if_true, if_false] <;>
    first
      | exact hq
      | exact (removeScanToken_sublist _ _).trans hq

/-- The `startScan` never leaves more than the limit tracked. -/
lemma startScan_tokens_length_le (maxConcurrentScans newId : Nat) (uri : String)
    (useCache hashOk : Bool) (cachedResults : Option (List FailedCheckovCheck))
    (st : List ScanTok) :
    (startScan maxConcurrentScans newId uri useCache hashOk cachedResults st).tokens.length
      ≤ maxConcurrentScans := by
  have hq := enforceConcurrentScanLimit_length_le maxConcurrentScans
    ((cancelScanForDocument uri st).1 ++ [{ id := newId, uri := uri, cancelled := false }])
  unfold startScan
  rcases useCache with _ | _ <;> rcases hashOk with _ | _ <;>
    rcases cachedResults with _ | results <;>
    simp only [Bool.not_true, Bool.not_false, if_true, if_false] <;>
    first
      | exact hq
      | exact le_trans (List.Sublist.length_le (removeScanToken_sublist _ _)) hq

/-- Every coordinator step keeps the tracking array within the limit. -/
lemma applyCoordOp_length_le (maxConcurrentScans : Nat) (st : List ScanTok) (op : CoordOp)
    (h : st.length ≤ maxConcurrentScans) :
    (applyCoordOp maxConcurrentScans st op).length ≤ maxConcurrentScans := by
  cases op with
  | start newId uri useCache hashOk cachedResults =>
    exact startScan_tokens_length_le maxConcurrentScans newId uri useCache hashOk
      cachedResults st
  | finish uri =>
    exact le_trans (List.Sublist.length_le (removeScanToken_sublist uri st)) h
  | timeoutFire id => simpa [applyCoordOp] using h
  | focusUnsupported => simp [applyCoordOp]

/-- The timeout callback rewrites tokens in place without touching URIs. -/
lemma filter_uri_timeoutFire (id : Nat) (u : String) (st : List ScanTok) :
    ((st.map (fun t => if t.id = id then cancelTok t else t)).filter
        (fun t => t.uri == u)).length
      = (st.filter (fun t => t.uri == u)).length := by
  induction st with
  | nil => rfl
  | cons t rest ih =>
    have huri : (if t.id = id then cancelTok t else t).uri = t.uri := by
      split <;> rfl
    by_cases hu : (t.uri == u) = true
    · simp only [List.map_cons, List.filter_cons, huri, hu, if_pos, List.length_cons, ih]
    · have hu' : (t.uri == u) = false := by simpa using hu
      simp only [List.map_cons, List.filter_cons, huri, hu', Bool.false_eq_true, if_neg,
        not_false_eq_true, ih]

/-- In every branch, `startScan` reports as superseded exactly the token
`cancelScanForDocument` cancelled. -/
lemma startScan_superseded (maxConcurrentScans newId : Nat) (uri : String)
    (useCache hashOk : Bool) (cachedResults : Option (List FailedCheckovCheck))
    (st : List ScanTok) :
    (startScan maxConcurrentScans newId uri useCache hashOk cachedResults st).superseded
      = (cancelScanForDocument uri st).2 := by
  unfold startScan
  rcases useCache with _ | _ <;> rcases hashOk with _ | _ <;>
    rcases cachedResults with _ | results <;> rfl

/-- In every branch, `startScan` reports as evicted exactly the tokens the
limit loop cancelled. -/
lemma startScan_evicted (maxConcurrentScans newId : Nat) (uri : String)
    (useCache hashOk : Bool) (cachedResults : Option (List FailedCheckovCheck))
    (st : List ScanTok) :
    (startScan maxConcurrentScans newId uri useCache hashOk cachedResults st).evicted
      = (enforceConcurrentScanLimit maxConcurrentScans
          ((cancelScanForDocument uri st).1
            ++ [{ id := newId, uri := uri, cancelled := false }])).2 := by
  unfold startScan
  rcases useCache with _ | _ <;> rcases hashOk with _ | _ <;>
    rcases cachedResults with _ | results <;> rfl

/-- Every coordinator step preserves "at most one tracked scan per URI". -/
lemma applyCoordOp_uriCount_le (maxConcurrentScans : Nat) (st : List ScanTok) (op : CoordOp)
    (h : ∀ u, (st.filter (fun t => t.uri == u)).length ≤ 1) :
    ∀ u, ((applyCoordOp maxConcurrentScans st op).filter (fun t => t.uri == u)).length ≤ 1 := by
  intro u
  cases op with
  | start newId uri useCache hashOk cachedResults =>
    have hsub := (startScan_tokens_sublist maxConcurrentScans newId uri useCache hashOk
      cachedResults st).filter (fun t => t.uri == u)
    refine le_trans hsub.length_le ?_
    rw [List.filter_append, List.length_append]
    by_cases hu : uri = u
    · subst hu
      have h1 : ((cancelScanForDocument uri st).1.filter (fun t => t.uri == uri)).length = 0 := by
        rw [cancelScanForDocument_fst_filter, List.length_tail]
        have := h uri
        omega
      rw [h1]
      simp
    · have h2 : (([{ id := newId, uri := uri, cancelled := false }] : List ScanTok).filter
          (fun t => t.uri == u)).length = 0 := by
        simp [hu]
      have h1 : ((cancelScanForDocument uri st).1.filter (fun t => t.uri == u)).length ≤ 1 :=
        le_trans ((cancelScanForDocument_fst_sublist uri st).filter _).length_le (h u)
      rw [h2]
      omega
  | finish uri =>
    exact le_trans ((removeScanToken_sublist uri st).filter _).length_le (h u)
  | timeoutFire id =>
    show ((st.map (fun t => if t.id = id then cancelTok t else t)).filter
        (fun t => t.uri == u)).length ≤ 1
    rw [filter_uri_timeoutFire]
    exact h u
  | focusUnsupported => simp [applyCoordOp]

/-! ## C2: the global concurrency bound and FIFO eviction -/

/-- C2: across any sequence of coordinator events, the number of
simultaneously active (non-cancelled) tracked scans never exceeds the
configured concurrent-scan limit; and when an admission at full capacity
triggers eviction, the cancelled scan is exactly the earliest-admitted one
(the head of the admission-ordered array), regardless of document. -/
theorem concurrentScanBound :
    ∀ (maxConcurrentScans : Nat) (ops : List CoordOp),
      ((runCoordOps maxConcurrentScans ops).filter (fun t => !t.cancelled)).length
        ≤ maxConcurrentScans ∧
      (∀ (newId : Nat) (uri : String) (useCache hashOk : Bool)
          (cachedResults : Option (List FailedCheckovCheck)) (t0 : ScanTok)
          (rest : List ScanTok),
        (∀ t ∈ t0 :: rest, t.uri ≠ uri) →
        (t0 :: rest).length = maxConcurrentScans →
        (startScan maxConcurrentScans newId uri useCache hashOk cachedResults
            (t0 :: rest)).evicted = [cancelTok t0]) := by
  intro maxConcurrentScans ops
  constructor
  · have hlen : ∀ (l : List CoordOp) (st : List ScanTok), st.length ≤ maxConcurrentScans →
        (l.foldl (applyCoordOp maxConcurrentScans) st).length ≤ maxConcurrentScans := by
      intro l
      induction l with
      | nil => intro st h; simpa using h
      | cons op l ih =>
        intro st h
        exact ih _ (applyCoordOp_length_le maxConcurrentScans st op h)
    exact le_trans (List.length_filter_le _ _) (hlen ops [] (by simp))
  · intro newId uri useCache hashOk cachedResults t0 rest hnone hlen
    have hcancel : cancelScanForDocument uri (t0 :: rest) = (t0 :: rest, none) :=
      cancelScanForDocument_of_not_mem uri _ hnone
    rw [startScan_evicted, hcancel, enforceConcurrentScanLimit_eq]
    have hl : ((t0 :: rest) ++ [({ id := newId, uri := uri, cancelled := false } : ScanTok)]).length
        = maxConcurrentScans + 1 := by
      rw [List.length_append, hlen]
      rfl
    rw [hl]
    have hone : maxConcurrentScans + 1 - maxConcurrentScans = 1 := by omega
    rw [hone]
    rfl

/-- Witness for C2's eviction clause: with a limit of 1 and one tracked scan
of another document, starting a scan evicts (cancels) that earlier scan. -/
theorem concurrentScanBound_witness :
    (∀ t ∈ [({ id := 0, uri := "fileA", cancelled := false } : ScanTok)],
        ScanTok.uri t ≠ "fileB") ∧
    ([({ id := 0, uri := "fileA", cancelled := false } : ScanTok)].length = 1) ∧
    (startScan 1 1 "fileB" false false none
        [{ id := 0, uri := "fileA", cancelled := false }]).evicted
      = [cancelTok { id := 0, uri := "fileA", cancelled := false }] := by
  refine ⟨by decide, by decide, ?_⟩
  exact (concurrentScanBound 1 []).2 1 "fileB" false false none
    { id := 0, uri := "fileA", cancelled := false } [] (by decide) (by decide)

/-! ## C3: per-document supersession -/

/-- C3: across any sequence of coordinator events at most one scan is
tracked per document identity; and whenever `startScan` runs for a document
with an existing tracked token, that token is cancelled (reported as
superseded) and is gone from the tracking array that admits the fresh
token. -/
theorem perDocumentSupersession :
    ∀ (maxConcurrentScans : Nat) (ops : List CoordOp) (u : String),
      ((runCoordOps maxConcurrentScans ops).filter (fun t => t.uri == u)).length ≤ 1 ∧
      (∀ (st : List ScanTok) (newId : Nat) (uri : String) (useCache hashOk : Bool)
          (cachedResults : Option (List FailedCheckovCheck)) (t0 : ScanTok),
        st.filter (fun t => t.uri == uri) = [t0] →
        t0.id ≠ newId →
        (startScan maxConcurrentScans newId uri useCache hashOk cachedResults st).superseded
            = some (cancelTok t0) ∧
        t0 ∉ (startScan maxConcurrentScans newId uri useCache hashOk cachedResults st).tokens) := by
  intro maxConcurrentScans ops u
  constructor
  · have hinv : ∀ (l : List CoordOp) (st : List ScanTok),
        (∀ u', (st.filter (fun t => t.uri == u')).length ≤ 1) →
        ∀ u', ((l.foldl (applyCoordOp maxConcurrentScans) st).filter
          (fun t => t.uri == u')).length ≤ 1 := by
      intro l
      induction l with
      | nil => intro st h; simpa using h
      | cons op l ih =>
        intro st h
        exact ih _ (applyCoordOp_uriCount_le maxConcurrentScans st op h)
    exact hinv ops [] (by intro u'; simp) u
  · intro st newId uri useCache hashOk cachedResults t0 hfil hid
    have ht0mem : t0 ∈ st.filter (fun t => t.uri == uri) := by
      rw [hfil]
      exact List.mem_singleton_self t0
    have ht0uri : t0.uri = uri := by
      have := List.of_mem_filter ht0mem
      simpa using this
    constructor
    · rw [startScan_superseded, cancelScanForDocument_snd, hfil]
      rfl
    · intro hmem
      have hsub := startScan_tokens_sublist maxConcurrentScans newId uri useCache hashOk
        cachedResults st
      have hmem2 : t0 ∈ (cancelScanForDocument uri st).1
          ++ [({ id := newId, uri := uri, cancelled := false } : ScanTok)] :=
        hsub.subset hmem
      rcases List.mem_append.mp hmem2 with h1 | h2
      · have hin : t0 ∈ (cancelScanForDocument uri st).1.filter (fun t => t.uri == uri) :=
          List.mem_filter.mpr ⟨h1, by simp [ht0uri]⟩
        rw [cancelScanForDocument_fst_filter, hfil] at hin
        simp at hin
      · have ht0 : t0 = { id := newId, uri := uri, cancelled := false } := by
          simpa using h2
        exact hid (by rw [ht0])

/-- Witness for C3's supersession clause at a concrete state: one tracked
scan for the document, superseded by a fresh one. -/
theorem perDocumentSupersession_witness :
    ([({ id := 3, uri := "doc", cancelled := false } : ScanTok)].filter
        (fun t => t.uri == "doc") = [{ id := 3, uri := "doc", cancelled := false }]) ∧
    (({ id := 3, uri := "doc", cancelled := false } : ScanTok).id ≠ 7) ∧
    ((startScan 5 7 "doc" false false none
        [{ id := 3, uri := "doc", cancelled := false }]).superseded
      = some (cancelTok { id := 3, uri := "doc", cancelled := false }) ∧
     ({ id := 3, uri := "doc", cancelled := false } : ScanTok) ∉
        (startScan 5 7 "doc" false false none
          [{ id := 3, uri := "doc", cancelled := false }]).tokens) := by
  refine ⟨by decide, by decide, ?_⟩
  exact (perDocumentSupersession 5 [] "doc").2
    [{ id := 3, uri := "doc", cancelled := false }] 7 "doc" false false none
    { id := 3, uri := "doc", cancelled := false } (by decide) (by decide)

/-! ## C1: the cache-hit scan path (corrected) -/

/-- C1 counterexample: with a concurrency limit of 1 and an older admitted
scan of `fileA` tracked, a `startScan` of `fileB` that is served entirely
from the cache (the runner is never invoked and the cached findings are
projected) still evicts — cancels — the older `fileA` scan for capacity.
This refutes the claim that a cache-hit scan "at no point occupies an
admission slot" and "never causes an older admitted scan to be cancelled
for capacity". -/
theorem cacheHitStillEvicts_counterexample :
    (startScan 1 1 "fileB" true true (some [])
        [{ id := 0, uri := "fileA", cancelled := false }]).runnerInvoked = false ∧
    (startScan 1 1 "fileB" true true (some [])
        [{ id := 0, uri := "fileA", cancelled := false }]).projectedFromCache = some [] ∧
    (startScan 1 1 "fileB" true true (some [])
        [{ id := 0, uri := "fileA", cancelled := false }]).evicted
      = [{ id := 0, uri := "fileA", cancelled := true }] := by
  decide

/-- C1 (amended): when a scan is started with cache use enabled and the
content-hash lookup hits, the Process Runner is not invoked, the cached
findings are projected immediately, and the scan's token is removed from the
active-scan set before `startScan` returns, so it occupies no admission slot
once the synchronous path completes — but the token is admitted before the
cache lookup, so during that synchronous span it does occupy a slot and may
evict the earliest-admitted scan when it exceeds the limit. -/
theorem cacheHitSkipsRunner :
    ∀ (maxConcurrentScans newId : Nat) (uri : String)
      (results : List FailedCheckovCheck) (st : List ScanTok),
      (st.filter (fun t => t.uri == uri)).length ≤ 1 →
      (startScan maxConcurrentScans newId uri true true (some results) st).runnerInvoked
          = false ∧
      (startScan maxConcurrentScans newId uri true true (some results) st).projectedFromCache
          = some results ∧
      ∀ t ∈ (startScan maxConcurrentScans newId uri true true (some results) st).tokens,
        t.uri ≠ uri := by
  intro maxConcurrentScans newId uri results st h
  refine ⟨rfl, rfl, ?_⟩
  intro t hmem huri
  have htok : (startScan maxConcurrentScans newId uri true true (some results) st).tokens
      = removeScanToken uri (enforceConcurrentScanLimit maxConcurrentScans
          ((cancelScanForDocument uri st).1
            ++ [{ id := newId, uri := uri, cancelled := false }])).1 := rfl
  have h1 : ((cancelScanForDocument uri st).1.filter (fun x => x.uri == uri)).length = 0 := by
    rw [cancelScanForDocument_fst_filter, List.length_tail]
    omega
  have h2 : ((((cancelScanForDocument uri st).1
      ++ [({ id := newId, uri := uri, cancelled := false } : ScanTok)]).filter
        (fun x => x.uri == uri)).length) ≤ 1 := by
    rw [List.filter_append, List.length_append, h1]
    simp
  have h3 : (((enforceConcurrentScanLimit maxConcurrentScans
      ((cancelScanForDocument uri st).1
        ++ [({ id := newId, uri := uri, cancelled := false } : ScanTok)])).1.filter
          (fun x => x.uri == uri)).length) ≤ 1 :=
    le_trans ((enforceConcurrentScanLimit_fst_sublist _ _).filter _).length_le h2
  have h4 : ((removeScanToken uri (enforceConcurrentScanLimit maxConcurrentScans
      ((cancelScanForDocument uri st).1
        ++ [({ id := newId, uri := uri, cancelled := false } : ScanTok)])).1).filter
          (fun x => x.uri == uri)).length = 0 := by
    rw [removeScanToken_filter, List.length_tail]
    omega
  have hin : t ∈ (removeScanToken uri (enforceConcurrentScanLimit maxConcurrentScans
      ((cancelScanForDocument uri st).1
        ++ [({ id := newId, uri := uri, cancelled := false } : ScanTok)])).1).filter
          (fun x => x.uri == uri) := by
    refine List.mem_filter.mpr ⟨?_, by simp [huri]⟩
    rw [htok] at hmem
    exact hmem
  rw [List.eq_nil_of_length_eq_zero h4] at hin
  exact absurd hin (List.not_mem_nil t)

/-- Witness for C1's amended theorem: a cache-hit scan from an empty
tracking array projects the cached findings, skips the runner, and leaves no
token for the document tracked. -/
theorem cacheHitSkipsRunner_witness :
    ((([] : List ScanTok)).filter (fun t => t.uri == "fileC")).length ≤ 1 ∧
    (startScan 2 4 "fileC" true true (some []) []).runnerInvoked = false ∧
    (startScan 2 4 "fileC" true true (some []) []).projectedFromCache = some [] ∧
    ∀ t ∈ (startScan 2 4 "fileC" true true (some []) []).tokens, t.uri ≠ "fileC" := by
  refine ⟨by decide, ?_⟩
  have h := cacheHitSkipsRunner 2 4 "fileC" [] [] (by decide)
  exact ⟨h.1, h.2.1, h.2.2⟩

/-! ## Result-cache support lemmas -/

/-- A current date stamp makes `validateCacheExpiration` a no-op. -/
lemma validateCacheExpiration_current (today : Nat) (st : WorkspaceState)
    (h : st.cacheDate = some today) : validateCacheExpiration today st = st :=
  if_pos h

/-- After a date mismatch, `validateCacheExpiration` yields the wiped
state. -/
lemma validateCacheExpiration_stale (today : Nat) (st : WorkspaceState)
    (h : st.cacheDate ≠ some today) :
    validateCacheExpiration today st = { cacheResults := some [], cacheDate := some today } :=
  if_neg h

/-- The `validateCacheExpiration` is idempotent. -/
lemma validateCacheExpiration_idem (today : Nat) (st : WorkspaceState) :
    validateCacheExpiration today (validateCacheExpiration today st)
      = validateCacheExpiration today st := by
  by_cases h : st.cacheDate = some today
  · rw [validateCacheExpiration_current today st h, validateCacheExpiration_current today st h]
  · rw [validateCacheExpiration_stale today st h]
    exact validateCacheExpiration_current today _ rfl

/-- Key lookup after assignment on the modelled JavaScript object. -/
lemma lookupFile_setFile_self (cache : ResultsCache) (f : String) (fc : FileCache) :
    lookupFile (setFile cache f fc) f = some fc := by
  induction cache with
  | nil => simp [setFile, lookupFile]
  | cons p rest ih =>
    by_cases h : p.1 == f
    · simp [setFile, h, lookupFile]
    · simpa [setFile, h, lookupFile] using ih

/-- The `find?` over an updated slot: when every original element fails the
predicate and the written element passes it, the written element is found. -/
lemma find?_set {α : Type} (l : List α) (i : Nat) (e : α) (p : α → Bool)
    (hi : i < l.length) (hall : ∀ x ∈ l, p x = false) (he : p e = true) :
    (l.set i e).find? p = some e := by
  induction l generalizing i with
  | nil => simp at hi
  | cons a rest ih =>
    cases i with
    | zero =>
      rw [List.set_cons_zero]
      exact List.find?_cons_of_pos rest he
    | succ j =>
      rw [List.set_cons_succ]
      have ha : ¬ p a = true := by
        simp [hall a (List.mem_cons_self a rest)]
      rw [List.find?_cons_of_neg _ ha]
      exact ih j (Nat.lt_of_succ_lt_succ hi)
        (fun x hx => hall x (List.mem_cons_of_mem a hx))

/-- The `saveCachedResults` re-validates first, so it may be computed on the
validated state. -/
lemma saveCachedResults_validate (today : Nat) (st : WorkspaceState)
    (fileHash filename : String) (results : List FailedCheckovCheck) :
    saveCachedResults today st fileHash filename results
      = saveCachedResults today (validateCacheExpiration today st) fileHash filename results := by
  unfold saveCachedResults
  rw [validateCacheExpiration_idem]

/-- One `saveCachedResults` step on a current-dated state with a tracked
file cache and a genuinely new entry: the entry is added and the per-file
cache is written back. -/
lemma saveCachedResults_step (today : Nat) (cache : ResultsCache) (fc : FileCache)
    (fileHash filename : String) (results : List FailedCheckovCheck)
    (hl : lookupFile cache filename = some fc)
    (hnc : fileCacheContainsEntry
      { fileHash := fileHash, filename := filename, results := results } fc = false) :
    saveCachedResults today { cacheResults := some cache, cacheDate := some today }
        fileHash filename results
      = { cacheResults := some (setFile cache filename (addSavedScanForFile
            { fileHash := fileHash, filename := filename, results := results } fc)),
          cacheDate := some today } := by
  unfold saveCachedResults
  rw [validateCacheExpiration_current today _ rfl]
  simp only [hl, hnc, Bool.false_eq_true, if_neg, Option.getD_some]
  rfl

/-- One `saveCachedResults` step when the entry's hash is already cached for
that file: an idempotent no-op. -/
lemma saveCachedResults_noop (today : Nat) (cache : ResultsCache) (fc : FileCache)
    (fileHash filename : String) (results : List FailedCheckovCheck)
    (hl : lookupFile cache filename = some fc)
    (hyes : fileCacheContainsEntry
      { fileHash := fileHash, filename := filename, results := results } fc = true) :
    saveCachedResults today { cacheResults := some cache, cacheDate := some today }
        fileHash filename results
      = { cacheResults := some cache, cacheDate := some today } := by
  unfold saveCachedResults
  rw [validateCacheExpiration_current today _ rfl]
  simp [hl, hyes]

/-- One `saveCachedResults` step on a path with no cache yet: an empty file
cache is registered and the entry pushed into it. -/
lemma saveCachedResults_fresh (today : Nat) (cache : ResultsCache)
    (fileHash filename : String) (results : List FailedCheckovCheck)
    (hl : lookupFile cache filename = none) :
    saveCachedResults today { cacheResults := some cache, cacheDate := some today }
        fileHash filename results
      = { cacheResults := some (setFile (setFile cache filename { oldest := 0, elements := [] })
            filename { oldest := 0, elements :=
              [{ fileHash := fileHash, filename := filename, results := results }] }),
          cacheDate := some today } := by
  unfold saveCachedResults
  rw [validateCacheExpiration_current today _ rfl]
  simp only [hl, Option.getD_none]
  have hnc : fileCacheContainsEntry
      { fileHash := fileHash, filename := filename, results := results }
      { oldest := 0, elements := [] } = false := rfl
  simp only [hnc, Bool.false_eq_true, if_neg]
  rfl

/-- The `getCachedResults` on a current-dated state: the state is untouched and
the lookup chains through the per-file cache. -/
lemma getCachedResults_current (today : Nat) (cache : ResultsCache)
    (fileHash filename : String) :
    getCachedResults today { cacheResults := some cache, cacheDate := some today }
        fileHash filename
      = ({ cacheResults := some cache, cacheDate := some today },
         (lookupFile cache filename).bind
           (fun fc => findSavedScanForFile fileHash filename fc)) := by
  unfold getCachedResults
  rw [validateCacheExpiration_current today _ rfl]
  cases hl : lookupFile cache filename <;> simp [hl]

/-- Round trip through a path with no per-file cache yet: the freshly pushed
entry is found. -/
lemma roundTrip_fresh (today : Nat) (cache : ResultsCache) (H P : String)
    (F : List FailedCheckovCheck) (hl : lookupFile cache P = none) :
    ((getCachedResults today
        (saveCachedResults today { cacheResults := some cache, cacheDate := some today } H P F)
        H P).2).map FileScanCacheEntry.results = some F := by
  rw [saveCachedResults_fresh today cache H P F hl, getCachedResults_current,
    lookupFile_setFile_self]
  simp [findSavedScanForFile, List.find?]

/-- The fill phase of the ring buffer: while below capacity, distinct-hash
inserts append in order and leave the write cursor at 0. -/
lemma insertAll_fill (today : Nat) (P : String) :
    ∀ (ps : List (String × List FailedCheckovCheck)) (cache : ResultsCache)
      (elems : List FileScanCacheEntry),
      lookupFile cache P = some { oldest := 0, elements := elems } →
      elems.length + ps.length ≤ maxCacheSizePerFile →
      (∀ p ∈ ps, ∀ e ∈ elems, e.fileHash ≠ p.1) →
      ps.Pairwise (fun a b => a.1 ≠ b.1) →
      ∃ cacheOut,
        insertAll today P ps { cacheResults := some cache, cacheDate := some today }
          = { cacheResults := some cacheOut, cacheDate := some today } ∧
        lookupFile cacheOut P
          = some { oldest := 0, elements := elems ++ ps.map (toCacheEntry P) } := by
  intro ps
  induction ps with
  | nil =>
    intro cache elems hl _ _ _
    exact ⟨cache, rfl, by simpa using hl⟩
  | cons p ps ih =>
    intro cache elems hl hlen hfresh hpw
    have hnc : fileCacheContainsEntry { fileHash := p.1, filename := P, results := p.2 }
        { oldest := 0, elements := elems } = false := by
      unfold fileCacheContainsEntry findSavedScanForFile
      rw [List.find?_eq_none.mpr]
      · rfl
      · intro e he
        have hne := hfresh p (List.mem_cons_self p ps) e he
        simp [hne]
    have hlt : elems.length < maxCacheSizePerFile := by
      simp only [List.length_cons] at hlen
      omega
    have hadd : addSavedScanForFile { fileHash := p.1, filename := P, results := p.2 }
        { oldest := 0, elements := elems }
        = { oldest := 0,
            elements := elems ++ [{ fileHash := p.1, filename := P, results := p.2 }] } := by
      unfold addSavedScanForFile
      rw [if_pos hlt]
    have hstep := saveCachedResults_step today cache { oldest := 0, elements := elems }
      p.1 P p.2 hl hnc
    rw [hadd] at hstep
    have hcons : insertAll today P (p :: ps)
        { cacheResults := some cache, cacheDate := some today }
        = insertAll today P ps (saveCachedResults today
            { cacheResults := some cache, cacheDate := some today } p.1 P p.2) := rfl
    rw [hcons, hstep]
    obtain ⟨cacheOut, h1, h2⟩ := ih
      (setFile cache P { oldest := 0, elements :=
        elems ++ [{ fileHash := p.1, filename := P, results := p.2 }] })
      (elems ++ [{ fileHash := p.1, filename := P, results := p.2 }])
      (lookupFile_setFile_self _ _ _)
      (by
        simp only [List.length_append, List.length_cons, List.length_nil] at hlen ⊢
        omega)
      (fun q hq e he => by
        rcases List.mem_append.mp he with h | h
        · exact hfresh q (List.mem_cons_of_mem p hq) e h
        · have he' : e = { fileHash := p.1, filename := P, results := p.2 } := by
            simpa using h
          rw [he']
          exact (List.pairwise_cons.mp hpw).1 q hq)
      (List.pairwise_cons.mp hpw).2
    refine ⟨cacheOut, h1, ?_⟩
    rw [h2]
    simp [toCacheEntry]

/-! ## C4: ring-buffer capacity and FIFO eviction -/

/-- C4: for every file path, inserting eleven entries with pairwise-distinct
content hashes into a path with no cache yet leaves exactly
`maxCacheSizePerFile` (= 10) entries retained, the write cursor parked on
slot 1, and the chronologically first insert evicted — the retained entries
are the last ten, with the eleventh overwriting slot 0. -/
theorem ringBufferFIFOEviction :
    ∀ (today : Nat) (cache0 : ResultsCache) (P : String)
      (p1 plast : String × List FailedCheckovCheck)
      (mid : List (String × List FailedCheckovCheck)),
      mid.length = 9 →
      (p1 :: (mid ++ [plast])).Pairwise (fun a b => a.1 ≠ b.1) →
      lookupFile cache0 P = none →
      ∃ cacheF,
        insertAll today P (p1 :: (mid ++ [plast]))
            { cacheResults := some cache0, cacheDate := some today }
          = { cacheResults := some cacheF, cacheDate := some today } ∧
        lookupFile cacheF P
          = some (FileCache.mk 1 (toCacheEntry P plast :: mid.map (toCacheEntry P))) ∧
        (toCacheEntry P plast :: mid.map (toCacheEntry P)).length = maxCacheSizePerFile ∧
        toCacheEntry P p1 ∉ toCacheEntry P plast :: mid.map (toCacheEntry P) := by
  intro today cache0 P p1 plast mid hmid hpw hl0
  obtain ⟨hp1, hpw1⟩ := List.pairwise_cons.mp hpw
  have hpwmid : mid.Pairwise (fun a b => a.1 ≠ b.1) := (List.pairwise_append.mp hpw1).1
  have hmidlast : ∀ a ∈ mid, a.1 ≠ plast.1 := fun a ha =>
    (List.pairwise_append.mp hpw1).2.2 a ha plast (List.mem_singleton_self plast)
  have hp1last : p1.1 ≠ plast.1 :=
    hp1 plast (List.mem_append.mpr (Or.inr (List.mem_singleton_self plast)))
  -- step 1: the fresh insert of p1 creates the per-file cache
  have h1 := saveCachedResults_fresh today cache0 p1.1 P p1.2 hl0
  have hlookup1 := lookupFile_setFile_self
    (setFile cache0 P { oldest := 0, elements := [] }) P
    { oldest := 0, elements := [{ fileHash := p1.1, filename := P, results := p1.2 }] }
  -- step 2: the nine middle inserts fill the buffer
  obtain ⟨cache2, h2, hlook2⟩ := insertAll_fill today P mid _
    [{ fileHash := p1.1, filename := P, results := p1.2 }] hlookup1
    (by simp [hmid, maxCacheSizePerFile])
    (fun q hq e he => by
      have he' : e = { fileHash := p1.1, filename := P, results := p1.2 } := by simpa using he
      rw [he']
      exact hp1 q (List.mem_append.mpr (Or.inl hq)))
    hpwmid
  -- step 3: the eleventh insert overwrites slot 0
  have hncl : fileCacheContainsEntry
      { fileHash := plast.1, filename := P, results := plast.2 }
      { oldest := 0, elements :=
        [{ fileHash := p1.1, filename := P, results := p1.2 }] ++ mid.map (toCacheEntry P) }
      = false := by
    unfold fileCacheContainsEntry findSavedScanForFile
    rw [List.find?_eq_none.mpr]
    · rfl
    · intro e he
      rcases List.mem_append.mp he with h | h
      · have he' : e = { fileHash := p1.1, filename := P, results := p1.2 } := by simpa using h
        rw [he']
        simp [hp1last]
      · obtain ⟨q, hq, rfl⟩ := List.mem_map.mp h
        have := hmidlast q hq
        simp [toCacheEntry, this]
  have hstep3 := saveCachedResults_step today cache2
    { oldest := 0, elements :=
      [{ fileHash := p1.1, filename := P, results := p1.2 }] ++ mid.map (toCacheEntry P) }
    plast.1 P plast.2 hlook2 hncl
  have hlen10 : (([{ fileHash := p1.1, filename := P, results := p1.2 }]
      : List FileScanCacheEntry) ++ mid.map (toCacheEntry P)).length = 10 := by
    simp [hmid]
  have hadd3 : addSavedScanForFile
      { fileHash := plast.1, filename := P, results := plast.2 }
      { oldest := 0, elements :=
        [{ fileHash := p1.1, filename := P, results := p1.2 }] ++ mid.map (toCacheEntry P) }
      = { oldest := 1, elements :=
          { fileHash := plast.1, filename := P, results := plast.2 }
            :: mid.map (toCacheEntry P) } := by
    unfold addSavedScanForFile
    rw [if_neg (by rw [hlen10]; simp [maxCacheSizePerFile])]
    simp only [List.singleton_append, List.set_cons_zero, List.length_cons,
      List.length_map, hmid]
    rfl
  rw [hadd3] at hstep3
  -- assemble the three phases
  have hdecomp : insertAll today P (p1 :: (mid ++ [plast]))
      { cacheResults := some cache0, cacheDate := some today }
      = saveCachedResults today
          (insertAll today P mid (saveCachedResults today
            { cacheResults := some cache0, cacheDate := some today } p1.1 P p1.2))
          plast.1 P plast.2 := by
    unfold insertAll
    rw [List.foldl_cons, List.foldl_append, List.foldl_cons, List.foldl_nil]
  refine ⟨setFile cache2 P (FileCache.mk 1
      ({ fileHash := plast.1, filename := P, results := plast.2 }
        :: mid.map (toCacheEntry P))), ?_, ?_, ?_, ?_⟩
  · rw [hdecomp, h1, h2, hstep3]
  · have := lookupFile_setFile_self cache2 P (FileCache.mk 1
      ({ fileHash := plast.1, filename := P, results := plast.2 }
        :: mid.map (toCacheEntry P)))
    simpa [toCacheEntry] using this
  · simp [hmid, maxCacheSizePerFile]
  · intro hmem
    rcases List.mem_cons.mp hmem with h | h
    · exact hp1last (congrArg FileScanCacheEntry.fileHash h)
    · obtain ⟨q, hq, hqe⟩ := List.mem_map.mp h
      exact hp1 q (List.mem_append.mpr (Or.inl hq))
        (congrArg FileScanCacheEntry.fileHash hqe).symm

/-- Witness for C4 at eleven concrete inserts with distinct hashes. -/
theorem ringBufferFIFOEviction_witness :
    ([("h02", []), ("h03", []), ("h04", []), ("h05", []), ("h06", []), ("h07", []),
        ("h08", []), ("h09", []), ("h10", [])]
      : List (String × List FailedCheckovCheck)).length = 9 ∧
    ((("h01", []) : String × List FailedCheckovCheck) ::
        ([("h02", []), ("h03", []), ("h04", []), ("h05", []), ("h06", []), ("h07", []),
          ("h08", []), ("h09", []), ("h10", [])] ++ [("h11", [])])).Pairwise
      (fun a b => a.1 ≠ b.1) ∧
    lookupFile [] "f" = none ∧
    ∃ cacheF,
      insertAll 0 "f" ((("h01", []) : String × List FailedCheckovCheck) ::
          ([("h02", []), ("h03", []), ("h04", []), ("h05", []), ("h06", []), ("h07", []),
            ("h08", []), ("h09", []), ("h10", [])] ++ [("h11", [])]))
          { cacheResults := some [], cacheDate := some 0 }
        = { cacheResults := some cacheF, cacheDate := some 0 } ∧
      lookupFile cacheF "f"
        = some (FileCache.mk 1 (toCacheEntry "f" ("h11", []) ::
            ([("h02", []), ("h03", []), ("h04", []), ("h05", []), ("h06", []), ("h07", []),
              ("h08", []), ("h09", []), ("h10", [])]
              : List (String × List FailedCheckovCheck)).map (toCacheEntry "f"))) ∧
      (toCacheEntry "f" (("h11", []) : String × List FailedCheckovCheck) ::
        ([("h02", []), ("h03", []), ("h04", []), ("h05", []), ("h06", []), ("h07", []),
          ("h08", []), ("h09", []), ("h10", [])]
          : List (String × List FailedCheckovCheck)).map (toCacheEntry "f")).length
        = maxCacheSizePerFile ∧
      toCacheEntry "f" (("h01", []) : String × List FailedCheckovCheck) ∉
        toCacheEntry "f" (("h11", []) : String × List FailedCheckovCheck) ::
          ([("h02", []), ("h03", []), ("h04", []), ("h05", []), ("h06", []), ("h07", []),
            ("h08", []), ("h09", []), ("h10", [])]
            : List (String × List FailedCheckovCheck)).map (toCacheEntry "f") := by
  refine ⟨by decide, by decide, rfl, ?_⟩
  exact ringBufferFIFOEviction 0 [] "f" ("h01", []) ("h11", [])
    [("h02", []), ("h03", []), ("h04", []), ("h05", []), ("h06", []), ("h07", []),
      ("h08", []), ("h09", []), ("h10", [])]
    (by decide) (by decide) rfl

/-! ## C5: cache round trip (corrected) -/

/-- C5 counterexample: when an entry with the same hash and path but
different findings is already cached, `put` is an idempotent no-op, so the
immediate `get` returns the pre-existing findings rather than the ones just
put — refuting the unconditional round-trip claim. -/
theorem cacheRoundTrip_counterexample :
    ((getCachedResults 0
        (saveCachedResults 0
          { cacheResults := some [("P", { oldest := 0, elements :=
              [{ fileHash := "H", filename := "P",
                 results := [{ checkId := "CKV_1", checkName := "c1",
                               fileLineRange := (1, 1) }] }] })],
            cacheDate := some 0 }
          "H" "P" []) "H" "P").2).map FileScanCacheEntry.results ≠ some [] := by
  decide

/-- C5 (amended): `put(H, P, F)` followed immediately by `get(H, P)` with no
date rollover in between returns a cache entry whose findings equal `F`,
provided the prior state is well formed (a current date stamp comes with a
stored cache object and in-range ring cursors) and any already-cached entry
for the same hash and path carries the same findings `F` — without that
proviso `put` is an idempotent no-op and `get` returns the pre-existing
entry's findings instead. -/
theorem cacheRoundTrip :
    ∀ (today : Nat) (st : WorkspaceState) (H P : String) (F : List FailedCheckovCheck),
      (st.cacheDate = some today → st.cacheResults ≠ none) →
      (∀ cache fc, st.cacheDate = some today → st.cacheResults = some cache →
        lookupFile cache P = some fc →
        fc.elements.length < maxCacheSizePerFile ∨ fc.oldest < fc.elements.length) →
      (∀ cache fc e, st.cacheDate = some today → st.cacheResults = some cache →
        lookupFile cache P = some fc → e ∈ fc.elements →
        e.fileHash = H → e.filename = P → e.results = F) →
      ((getCachedResults today (saveCachedResults today st H P F) H P).2).map
        FileScanCacheEntry.results = some F := by
  intro today st H P F hsome hwf hcompat
  by_cases hd : st.cacheDate = some today
  · obtain ⟨cr, cd⟩ := st
    replace hd : cd = some today := hd
    subst hd
    rcases cr with _ | cache
    · exact absurd rfl (hsome rfl)
    cases hl : lookupFile cache P with
    | none => exact roundTrip_fresh today cache H P F hl
    | some fc =>
      cases hcon : fileCacheContainsEntry
          { fileHash := H, filename := P, results := F } fc with
      | true =>
        rw [saveCachedResults_noop today cache fc H P F hl hcon,
          getCachedResults_current, hl]
        unfold fileCacheContainsEntry at hcon
        obtain ⟨e0, he0⟩ := Option.isSome_iff_exists.mp hcon
        have he0' : List.find? (fun e => e.fileHash == H && e.filename == P) fc.elements
            = some e0 := by
          simpa [findSavedScanForFile] using he0
        have hmem : e0 ∈ fc.elements := List.mem_of_find?_eq_some he0'
        have hpred := List.find?_some he0'
        simp only [Bool.and_eq_true, beq_iff_eq] at hpred
        have hres := hcompat cache fc e0 rfl rfl hl hmem hpred.1 hpred.2
        simp [he0, hres]
      | false =>
        rw [saveCachedResults_step today cache fc H P F hl hcon,
          getCachedResults_current, lookupFile_setFile_self]
        have hnone : fc.elements.find?
            (fun e => e.fileHash == H && e.filename == P) = none := by
          unfold fileCacheContainsEntry findSavedScanForFile at hcon
          exact Option.not_isSome_iff_eq_none.mp (by simp [hcon])
        unfold addSavedScanForFile
        by_cases hlen : fc.elements.length < maxCacheSizePerFile
        · rw [if_pos hlen]
          simp only [Option.some_bind]
          unfold findSavedScanForFile
          rw [List.find?_append, hnone, Option.none_or]
          simp [List.find?]
        · rw [if_neg hlen]
          simp only [Option.some_bind]
          unfold findSavedScanForFile
          have hoindex : fc.oldest < fc.elements.length := by
            rcases hwf cache fc rfl rfl hl with h | h
            · exact absurd h hlen
            · exact h
          rw [find?_set _ _ _ _ hoindex
            (fun x hx => by
              have := List.find?_eq_none.mp hnone x hx
              simpa using this)
            (by simp)]
          simp
  · rw [saveCachedResults_validate, validateCacheExpiration_stale today st hd]
    exact roundTrip_fresh today [] H P F rfl

/-- Witness for C5's amended theorem: a round trip from a cleared workspace
state stores and returns the findings just put. -/
theorem cacheRoundTrip_witness :
    ((getCachedResults 0
        (saveCachedResults 0 { cacheResults := none, cacheDate := none } "h1" "p1"
          [{ checkId := "CKV_2", checkName := "c2", fileLineRange := (2, 3) }])
        "h1" "p1").2).map FileScanCacheEntry.results
      = some [{ checkId := "CKV_2", checkName := "c2", fileLineRange := (2, 3) }] :=
  cacheRoundTrip 0 { cacheResults := none, cacheDate := none } "h1" "p1"
    [{ checkId := "CKV_2", checkName := "c2", fileLineRange := (2, 3) }]
    (fun h => Option.noConfusion h)
    (fun _ _ h => Option.noConfusion h)
    (fun _ _ _ h => Option.noConfusion h)

/-! ## C7: version resolution and the 1-hour cache -/

/-- One `resolveCheckovVersion` call consults the network at most once. -/
lemma resolveCheckovVersion_networkResolutions_le_one (net : DockerNet) (now : Nat)
    (requestedVersion : String) (versionCache : Option VersionCacheEntry) :
    (resolveCheckovVersion net now requestedVersion versionCache).networkResolutions ≤ 1 := by
  cases hout : net.runVersionOutput with
  | none =>
    rcases versionCache with _ | c <;>
      simp only [resolveCheckovVersion, resolveCheckovVersion.resolveCheckovVersionFromNet,
        hout] <;>
      split_ifs <;> simp
  | some out =>
    rcases versionCache with _ | c <;>
      simp only [resolveCheckovVersion, resolveCheckovVersion.resolveCheckovVersionFromNet,
        hout] <;>
      split_ifs <;> simp

/-- A successful network resolution at time `now` fills the cache with a
`now`-stamped entry. -/
lemma resolveCheckovVersionFromNet_success (net : DockerNet) (now : Nat)
    (versionCache : Option VersionCacheEntry) (out : String)
    (hpull : net.pullTag "latest" = true) (hout : net.runVersionOutput = some out) :
    resolveCheckovVersion.resolveCheckovVersionFromNet net now versionCache =
      { version := out.trim,
        resolvedVersion := if net.pullTag out.trim then out.trim else "latest",
        cacheAfter := some
          { version := out.trim, timestamp := now,
            resolvedVersion := if net.pullTag out.trim then out.trim else "latest" },
        networkResolutions := 1 } := by
  simp [resolveCheckovVersion.resolveCheckovVersionFromNet, hpull, hout,
    checkVersionHasDockerTag]

/-- C7: requesting a concrete version string returns it directly as both the
display and the resolved version, with no network resolution and no cache
change; and two `"latest"` resolutions within one hour of each other, the
first of which can reach the network successfully, perform at most one
network resolution in total. -/
theorem versionResolutionNetworkUsage :
    ∀ (net net2 : DockerNet) (now now2 : Nat) (requestedVersion : String)
      (versionCache : Option VersionCacheEntry) (out : String),
      (requestedVersion ≠ "latest" →
        resolveCheckovVersion net now requestedVersion versionCache =
          { version := requestedVersion, resolvedVersion := requestedVersion,
            cacheAfter := versionCache, networkResolutions := 0 }) ∧
      (net.pullTag "latest" = true → net.runVersionOutput = some out →
        now2 - now < VERSION_CACHE_TTL →
        (resolveCheckovVersion net now "latest" versionCache).networkResolutions +
          (resolveCheckovVersion net2 now2 "latest"
            (resolveCheckovVersion net now "latest" versionCache).cacheAfter).networkResolutions
          ≤ 1) := by
  intro net net2 now now2 requestedVersion versionCache out
  constructor
  · intro hv
    simp [resolveCheckovVersion, hv]
  · intro hpull hout httl
    have hfresh : ∀ vcache : Option VersionCacheEntry,
        resolveCheckovVersion.resolveCheckovVersionFromNet net now vcache =
          { version := out.trim,
            resolvedVersion := if net.pullTag out.trim then out.trim else "latest",
            cacheAfter := some
              { version := out.trim, timestamp := now,
                resolvedVersion := if net.pullTag out.trim then out.trim else "latest" },
            networkResolutions := 1 } :=
      fun vcache => resolveCheckovVersionFromNet_success net now vcache out hpull hout
    have hhit : ∀ (c : VersionCacheEntry), c.timestamp = now →
        (resolveCheckovVersion net2 now2 "latest" (some c)).networkResolutions = 0 := by
      intro c hc
      have : now2 - c.timestamp < VERSION_CACHE_TTL := by rw [hc]; exact httl
      simp [resolveCheckovVersion, this]
    rcases versionCache with _ | c
    · rw [show resolveCheckovVersion net now "latest" none =
          resolveCheckovVersion.resolveCheckovVersionFromNet net now none from by
            simp [resolveCheckovVersion]]
      rw [hfresh none]
      simpa using hhit _ rfl
    · by_cases hstale : now - c.timestamp < VERSION_CACHE_TTL
      · have h1 : resolveCheckovVersion net now "latest" (some c) =
            { version := c.version, resolvedVersion := c.resolvedVersion,
              cacheAfter := some c, networkResolutions := 0 } := by
          simp [resolveCheckovVersion, hstale]
        rw [h1]
        simpa using resolveCheckovVersion_networkResolutions_le_one net2 now2 "latest" (some c)
      · have h1 : resolveCheckovVersion net now "latest" (some c) =
            resolveCheckovVersion.resolveCheckovVersionFromNet net now (some c) := by
          simp [resolveCheckovVersion, hstale]
        rw [h1, hfresh (some c)]
        simpa using hhit _ rfl

/-- Witness for C7 at concrete inputs: a concrete version resolves with no
network use, and two `"latest"` resolutions five minutes apart use the
network once. -/
theorem versionResolutionNetworkUsage_witness :
    (("3.2.0" : String) ≠ "latest" ∧
      resolveCheckovVersion { pullTag := fun _ => true, runVersionOutput := some "3.2.1" }
          0 "3.2.0" none =
        { version := "3.2.0", resolvedVersion := "3.2.0", cacheAfter := none,
          networkResolutions := 0 }) ∧
    (({ pullTag := fun _ => true, runVersionOutput := some "3.2.1" } : DockerNet).pullTag
        "latest" = true ∧
      ({ pullTag := fun _ => true, runVersionOutput := some "3.2.1" } : DockerNet).runVersionOutput
        = some "3.2.1" ∧
      300000 - 0 < VERSION_CACHE_TTL ∧
      (resolveCheckovVersion { pullTag := fun _ => true, runVersionOutput := some "3.2.1" }
          0 "latest" none).networkResolutions +
        (resolveCheckovVersion { pullTag := fun _ => true, runVersionOutput := some "3.2.1" }
          300000 "latest"
          (resolveCheckovVersion { pullTag := fun _ => true, runVersionOutput := some "3.2.1" }
            0 "latest" none).cacheAfter).networkResolutions ≤ 1) := by
  refine ⟨⟨by decide, ?_⟩, rfl, rfl, by decide, ?_⟩
  · exact (versionResolutionNetworkUsage
      { pullTag := fun _ => true, runVersionOutput := some "3.2.1" }
      { pullTag := fun _ => true, runVersionOutput := some "3.2.1" }
      0 300000 "3.2.0" none "3.2.1").1 (by decide)
  · exact (versionResolutionNetworkUsage
      { pullTag := fun _ => true, runVersionOutput := some "3.2.1" }
      { pullTag := fun _ => true, runVersionOutput := some "3.2.1" }
      0 300000 "latest" none "3.2.1").2 rfl rfl (by decide)

/-! ## C8: dockerized install falls back to the latest tag -/

/-- C8: when the pull of a non-`latest` resolved tag fails, the installer
retries exactly once against the `latest` tag, invalidates the version
cache, and on success returns an installation whose `version` (the tag used
for container commands) is `latest` while `actualVersion` keeps the
previously discovered concrete version. -/
theorem dockerInstallLatestFallback :
    ∀ (net : DockerNet) (now : Nat) (checkovVersion : String)
      (versionCache : Option VersionCacheEntry),
      checkovVersion ≠ "latest" →
      net.pullTag checkovVersion = false →
      net.pullTag "latest" = true →
      installOrUpdateCheckovWithDocker net now checkovVersion versionCache =
        { installation := some
            { checkovInstallationMethod := .docker, checkovPath := "docker",
              version := some "latest", actualVersion := some checkovVersion },
          cacheAfter := none,
          pullAttempts := [checkovVersion, "latest"] } := by
  intro net now checkovVersion versionCache hv hfail hlatest
  have hr : resolveCheckovVersion net now checkovVersion versionCache =
      { version := checkovVersion, resolvedVersion := checkovVersion,
        cacheAfter := versionCache, networkResolutions := 0 } := by
    simp [resolveCheckovVersion, hv]
  simp [installOrUpdateCheckovWithDocker, hr, hfail, hlatest, hv]

/-- Witness for C8 at concrete inputs: the pull of tag `2.5.0` fails, the
retry against `latest` succeeds, and the returned installation carries
`version = latest` with `actualVersion = 2.5.0` and a cleared cache. -/
theorem dockerInstallLatestFallback_witness :
    (("2.5.0" : String) ≠ "latest" ∧
      ({ pullTag := fun t => t == "latest", runVersionOutput := none } : DockerNet).pullTag
        "2.5.0" = false ∧
      ({ pullTag := fun t => t == "latest", runVersionOutput := none } : DockerNet).pullTag
        "latest" = true) ∧
    installOrUpdateCheckovWithDocker
        { pullTag := fun t => t == "latest", runVersionOutput := none } 0 "2.5.0"
        (some { version := "2.5.0", timestamp := 0, resolvedVersion := "2.5.0" }) =
      { installation := some
          { checkovInstallationMethod := .docker, checkovPath := "docker",
            version := some "latest", actualVersion := some "2.5.0" },
        cacheAfter := none,
        pullAttempts := ["2.5.0", "latest"] } :=
  ⟨⟨by decide, by decide, by decide⟩,
    dockerInstallLatestFallback
      { pullTag := fun t => t == "latest", runVersionOutput := none } 0 "2.5.0"
      (some { version := "2.5.0", timestamp := 0, resolvedVersion := "2.5.0" })
      (by decide) (by decide) (by decide)⟩

end CheckovPrismaless
